import Mathlib

/-!
Shallow embedding of the SMAnalyzer metrics-to-anomaly pipeline
(time-series store, feature extraction, k-means clustering engine and
hybrid anomaly detector), together with theorems settling the spec
claims about it.

Modelling conventions:
* Go `float64` is idealised as `ℝ` (no NaN/overflow; Lean's `x / 0 = 0`
  stands in for the unguarded IEEE divisions, which no settled claim
  exercises at a zero denominator).
* The IEEE sentinel `math.Inf(1)` used to seed running minima is
  modelled as `Option ℝ` with `none` standing for `+∞`.
* Go `time.Time` is modelled as `Int` (only its strict order is used);
  `time.Now()` becomes an explicit timestamp argument.
* Go maps become functions into `Option`; a nil slice is the empty list.
-/

namespace SM

namespace timeseries

/-- One stored sample (`timeseries.DataPoint`). -/
structure DataPoint where
  Timestamp : Int
  Value : ℝ
  Labels : List (String × String)

/-- Default sample used to translate Go's indexing of known-nonempty slices. -/
def dfltPoint : DataPoint := ⟨0, 0, []⟩

/-- One per-(service, metric) series (`timeseries.TimeSeries`; the mutex is
concurrency plumbing with no sequential meaning and is dropped). -/
structure TimeSeries where
  ServiceName : String
  Metric : String
  Points : List DataPoint

/-- The store is the composite-key-to-series map inside `timeseries.Storage`. -/
def Storage := String → Option TimeSeries

/-- Composite key `serviceName + ":" + metric` used by every Storage method. -/
def SKey (serviceName metric : String) : String := serviceName ++ ":" ++ metric

/-- Go `NewStorage`: the empty map. -/
def NewStorage : Storage := fun _ => none

/-- Go `Storage.Store`: appends one sample, creating the series on first use.
`now` is the timestamp `time.Now()` would produce at the call. -/
def Store (s : Storage) (serviceName metric : String) (value : ℝ)
    (labels : List (String × String)) (now : Int) : Storage :=
  let key := SKey serviceName metric
  let ser : TimeSeries := match s key with
    | none => { ServiceName := serviceName, Metric := metric, Points := [] }
    | some t => t
  let point : DataPoint := { Timestamp := now, Value := value, Labels := labels }
  fun k => if k = key then some { ser with Points := ser.Points ++ [point] } else s k

/-- Go `Storage.GetSeries`. -/
def GetSeries (s : Storage) (serviceName metric : String) : Option TimeSeries :=
  s (SKey serviceName metric)

/-- Go `Storage.GetTimeRange`: the loop appending every point with
`point.Timestamp.After(start) && point.Timestamp.Before(stop)`
(`end` is renamed `stop`: `end` is a Lean keyword). -/
def GetTimeRange (s : Storage) (serviceName metric : String) (start stop : Int) :
    List DataPoint :=
  match GetSeries s serviceName metric with
  | none => []
  | some ser =>
      ser.Points.foldl
        (fun acc p => if start < p.Timestamp ∧ p.Timestamp < stop then acc ++ [p] else acc) []

/-- Go `Storage.GetLatestN` (`n` is a requested count, hence `Nat`). -/
def GetLatestN (s : Storage) (serviceName metric : String) (n : Nat) : List DataPoint :=
  match GetSeries s serviceName metric with
  | none => []
  | some ser =>
      if ser.Points.length ≤ n then ser.Points
      else ser.Points.drop (ser.Points.length - n)

/-- One `Store` call, reified so that arbitrary call sequences can be folded. -/
structure StoreOp where
  entity : String
  metric : String
  value : ℝ
  labels : List (String × String)
  now : Int

/-- The sample a single `Store` call appends. -/
def opPoint (o : StoreOp) : DataPoint := ⟨o.now, o.value, o.labels⟩

/-- Replay a sequence of `Store` calls against the empty store. -/
def applyStores (ops : List StoreOp) : Storage :=
  ops.foldl (fun s o => Store s o.entity o.metric o.value o.labels o.now) NewStorage

/-- The point sequence currently held under key `k` (empty if absent). -/
def pointsAt (s : Storage) (k : String) : List DataPoint :=
  match s k with
  | none => []
  | some ser => ser.Points

/-- The samples a sequence of `Store` calls contributes to key `k`, in call order. -/
def keyedSamples (ops : List StoreOp) (k : String) : List DataPoint :=
  (ops.filter (fun o => SKey o.entity o.metric = k)).map opPoint

end timeseries

namespace ml

/-- Go `ml.ClusterPoint`: one extracted feature vector (`Original` is the Go
back-pointer `*timeseries.DataPoint`). -/
structure ClusterPoint where
  Features : List ℝ
  Label : String
  Original : Option timeseries.DataPoint

/-- Default `ClusterPoint`, translating Go's indexing of known-nonempty slices. -/
def dfltCPoint : ClusterPoint := ⟨[], "", none⟩

/-- Go `ml.Cluster`. -/
structure Cluster where
  Centroid : List ℝ
  Points : List ClusterPoint

/-- Default `Cluster`, used where Go indexes a slice it knows is long enough. -/
def dfltCluster : Cluster := ⟨[], []⟩

/-- Go `ml.KMeansConfig` (`K` and `MaxIter` are Go ints only ever configured
non-negative, hence `Nat`; the unused `Features` field is kept). -/
structure KMeansConfig where
  K : Nat
  MaxIter : Nat
  Tolerance : ℝ
  Features : List String

/-- Go `ClusteringEngine.calculateMean`. -/
noncomputable def calculateMean (points : List timeseries.DataPoint) : ℝ :=
  if points.length = 0 then 0
  else (points.foldl (fun s p => s + p.Value) 0) / (points.length : ℝ)

/-- Go `ClusteringEngine.calculateStdDev` (sample standard deviation, `n-1`). -/
noncomputable def calculateStdDev (points : List timeseries.DataPoint) : ℝ :=
  if points.length ≤ 1 then 0
  else
    let mean := calculateMean points
    let sumSquaredDiff := points.foldl (fun s p => s + (p.Value - mean) * (p.Value - mean)) 0
    Real.sqrt (sumSquaredDiff / ((points.length - 1 : ℕ) : ℝ))

/-- Go `ClusteringEngine.calculateTrend` (the `first = 0` division is unguarded in
the source; under the real-number idealisation it yields Lean's `x / 0 = 0`). -/
noncomputable def calculateTrend (points : List timeseries.DataPoint) : ℝ :=
  if points.length < 2 then 0
  else
    let first := (points.headD timeseries.dfltPoint).Value
    let last := (points.getLastD timeseries.dfltPoint).Value
    (last - first) / first

/-- Go `ClusteringEngine.calculateVolatility`: the `changes` array is pre-zeroed
and slot `i-1` is written only when `points[i-1].Value != 0`, which is the
`else 0` branch here; then the square root of the mean squared deviation of
`changes` from their mean (denominator `len(changes)`). -/
noncomputable def calculateVolatility (points : List timeseries.DataPoint) : ℝ :=
  if points.length < 2 then 0
  else
    let changes := List.zipWith
      (fun prev cur => if prev.Value ≠ 0 then (cur.Value - prev.Value) / prev.Value else 0)
      points points.tail
    let mean := (changes.foldl (fun s c => s + c) 0) / (changes.length : ℝ)
    let variance :=
      (changes.foldl (fun v c => v + (c - mean) * (c - mean)) 0) / (changes.length : ℝ)
    Real.sqrt variance

/-- Go `ClusteringEngine.ExtractFeatures`: for `i` from `windowSize` to
`len(points)-1`, the four statistics over the window `points[i-windowSize : i]`,
tagged with `points[i]`. -/
noncomputable def ExtractFeatures (points : List timeseries.DataPoint)
    (windowSize : Nat) : List ClusterPoint :=
  (List.range' windowSize (points.length - windowSize)).map (fun i =>
    let window := (points.drop (i - windowSize)).take windowSize
    { Features := [calculateMean window, calculateStdDev window,
                   calculateTrend window, calculateVolatility window],
      Label := "",
      Original := points[i]? })

/-- Go `ClusteringEngine.euclideanDistance` (Go iterates the indices of `a`,
reading `b[i]`; callers only pass equal-length vectors, matched by `zipWith`). -/
noncomputable def euclideanDistance (a b : List ℝ) : ℝ :=
  Real.sqrt ((List.zipWith (fun x y => (x - y) * (x - y)) a b).foldl (fun s d => s + d) 0)

/-- The Go test `dist < minDist`, where `minDist : Option ℝ` models the running minimum
seeded with `math.Inf(1)` (`none` is `+∞`, so the first comparison succeeds). -/
def ltMin (dist : ℝ) : Option ℝ → Prop
  | none => True
  | some m => dist < m

noncomputable instance (dist : ℝ) (m : Option ℝ) : Decidable (ltMin dist m) := by
  cases m with
  | none => exact isTrue trivial
  | some v => exact inferInstanceAs (Decidable (dist < v))

/-- The `minDist`/`clusterIdx` scan inside `assignPointsToClusters`: the index
of the first centroid at strictly minimal Euclidean distance from `feat`. -/
noncomputable def nearestIdx (centroids : List (List ℝ)) (feat : List ℝ) : Nat :=
  (centroids.foldl
    (fun (st : Nat × Option ℝ × Nat) c =>
      let dist := euclideanDistance feat c
      if ltMin dist st.2.1 then (st.2.2, some dist, st.2.2 + 1)
      else (st.1, st.2.1, st.2.2 + 1))
    (0, none, 0)).1

/-- Go `ClusteringEngine.assignPointsToClusters`: truncate every cluster's point
list, then append each point to its nearest cluster (centroids are not
modified during the loop, so distances are always against the input
centroids). -/
noncomputable def assignPointsToClusters (points : List ClusterPoint)
    (clusters : List Cluster) : List Cluster :=
  let cleared := clusters.map (fun c => { c with Points := [] })
  points.foldl
    (fun cs p =>
      let idx := nearestIdx (cs.map (fun c => c.Centroid)) p.Features
      cs.set idx { cs.getD idx dfltCluster with
                     Points := (cs.getD idx dfltCluster).Points ++ [p] })
    cleared

/-- Go `ClusteringEngine.updateCentroids`: a cluster with assigned points gets the
per-dimension mean of its points as new centroid; an empty cluster keeps its
centroid (`continue`). -/
noncomputable def updateCentroids (clusters : List Cluster) : List Cluster :=
  clusters.map (fun c =>
    if c.Points.length = 0 then c
    else { c with Centroid := (List.range c.Centroid.length).map (fun j =>
      (c.Points.foldl (fun s p => s + p.Features.getD j 0) 0) / (c.Points.length : ℝ)) })

/-- Go `ClusteringEngine.copyCentroids` (deep copy is the identity on values). -/
def copyCentroids (clusters : List Cluster) : List (List ℝ) :=
  clusters.map (fun c => c.Centroid)

/-- Go `ClusteringEngine.hasConverged`: every cluster's displacement from its old
centroid is at most the tolerance (the loop returns false on `dist > tol`). -/
noncomputable def hasConverged (tol : ℝ) (oldCentroids : List (List ℝ))
    (clusters : List Cluster) : Prop :=
  ∀ pr ∈ oldCentroids.zip (clusters.map (fun c => c.Centroid)),
    euclideanDistance pr.1 pr.2 ≤ tol

noncomputable instance (tol : ℝ) (old : List (List ℝ)) (cs : List Cluster) :
    Decidable (hasConverged tol old cs) :=
  inferInstanceAs (Decidable (∀ pr ∈ _, _ ≤ _))

/-- Go `ClusteringEngine.initializeClusters`: centroid `i` is seeded from the
feature vector at index `i * len(points) / K`; all point lists start empty. -/
noncomputable def initializeClusters (cfg : KMeansConfig)
    (points : List ClusterPoint) : List Cluster :=
  (List.range cfg.K).map (fun i =>
    let pointIdx := i * points.length / cfg.K
    { Centroid := ((points[pointIdx]?).map (fun p => p.Features)).getD [],
      Points := [] })

/-- The `for iter := 0; iter < MaxIter` loop of `ClusteringEngine.KMeans`:
copy centroids, assign, update, stop early on convergence. -/
noncomputable def kmeansIter (cfg : KMeansConfig) (points : List ClusterPoint) :
    Nat → List Cluster → List Cluster
  | 0, clusters => clusters
  | Nat.succ n, clusters =>
      let oldCentroids := copyCentroids clusters
      let cs1 := assignPointsToClusters points clusters
      let cs2 := updateCentroids cs1
      if hasConverged cfg.Tolerance oldCentroids cs2 then cs2
      else kmeansIter cfg points n cs2

/-- Go `ClusteringEngine.KMeans`: nil on fewer than `K` points, otherwise the
iterated assign/update loop from the deterministic seeding. -/
noncomputable def KMeans (cfg : KMeansConfig) (points : List ClusterPoint) :
    List Cluster :=
  if points.length < cfg.K then []
  else kmeansIter cfg points cfg.MaxIter (initializeClusters cfg points)

end ml

namespace anomaly

/-- The anomaly-type string constants (`anomaly.AnomalyType`). -/
def TrafficSpike : String := "traffic_spike"

/-- Go `anomaly.ErrorRateHigh`. -/
def ErrorRateHigh : String := "error_rate_high"

/-- The raw string literal the ML path emits (not one of the declared constants). -/
def BehavioralAnomaly : String := "behavioral_anomaly"

/-- Go `anomaly.Anomaly`, restricted to the fields the claims are about (`Type'`
is Go's `Type`, a Lean keyword). `Severity` is `Option ℝ` with `none` standing
for the IEEE `+Inf` that arises when the ML minimum distance stays at its
`math.Inf(1)` seed; every other severity is finite (`some`). The presentation
fields `Namespace`, `Description`, `Timestamp`, `Metrics`, `Labels` carry no
claim-relevant content and are omitted. -/
structure Anomaly where
  Type' : String
  ServiceName : String
  Severity : Option ℝ

/-- Go `anomaly.DetectionConfig`, restricted to the fields the detector reads
(`LatencyThreshold`, `RetryThreshold`, `TimeoutThreshold` are configured but
never consumed by any code path). -/
structure DetectionConfig where
  TrafficSpikeThreshold : ℝ
  ErrorRateThreshold : ℝ
  WindowSize : Nat
  SensitivityLevel : ℝ

/-- Go `anomaly.Detector`: config, clustering engine config, and the per-service
baselines map (`map[string][]ml.Cluster`; `none` = key absent, and a stored
nil slice is `some []`). -/
structure Detector where
  config : DetectionConfig
  clusteringEngine : ml.KMeansConfig
  baselines : String → Option (List ml.Cluster)

/-- Go `Detector.calculateMean` (textually identical to the ml helper). -/
noncomputable def calculateMean (points : List timeseries.DataPoint) : ℝ :=
  if points.length = 0 then 0
  else (points.foldl (fun s p => s + p.Value) 0) / (points.length : ℝ)

/-- Go `Detector.euclideanDistance` (textually identical to the ml helper). -/
noncomputable def euclideanDistance (a b : List ℝ) : ℝ :=
  Real.sqrt ((List.zipWith (fun x y => (x - y) * (x - y)) a b).foldl (fun s d => s + d) 0)

/-- Go `Detector.isTrafficSpike`: mean of the last 3 points against
`TrafficSpikeThreshold` times the mean of everything before them. -/
noncomputable def isTrafficSpike (d : Detector) (points : List timeseries.DataPoint) : Prop :=
  if points.length < 3 then False
  else
    calculateMean (points.drop (points.length - 3))
      > calculateMean (points.take (points.length - 3)) * d.config.TrafficSpikeThreshold

noncomputable instance (d : Detector) (points : List timeseries.DataPoint) :
    Decidable (isTrafficSpike d points) := by
  unfold isTrafficSpike
  infer_instance

/-- Go `Detector.isHighErrorRate`: the single latest point's value strictly above
`ErrorRateThreshold` (false on empty input). -/
noncomputable def isHighErrorRate (d : Detector) (points : List timeseries.DataPoint) : Prop :=
  if points.length = 0 then False
  else (points.getLastD timeseries.dfltPoint).Value > d.config.ErrorRateThreshold

noncomputable instance (d : Detector) (points : List timeseries.DataPoint) :
    Decidable (isHighErrorRate d points) := by
  unfold isHighErrorRate
  infer_instance

/-- Go `Detector.calculateTrafficSpikeSeverity` (ratio of recent to prior mean,
1.0 when fewer than 3 points or a zero prior mean). -/
noncomputable def calculateTrafficSpikeSeverity (d : Detector)
    (points : List timeseries.DataPoint) : ℝ :=
  if points.length < 3 then 1
  else
    let baseline := calculateMean (points.take (points.length - 3))
    let currentRate := calculateMean (points.drop (points.length - 3))
    if baseline = 0 then 1 else currentRate / baseline

/-- Go `Detector.detectStaticAnomalies`: nothing on fewer than 2 points, else the
traffic-spike record (if firing) followed by the error-rate record (if firing). -/
noncomputable def detectStaticAnomalies (d : Detector) (serviceName : String)
    (points : List timeseries.DataPoint) : List Anomaly :=
  if points.length < 2 then []
  else
    let latest := points.getLastD timeseries.dfltPoint
    (if isTrafficSpike d points then
      [{ Type' := TrafficSpike, ServiceName := serviceName,
         Severity := some (calculateTrafficSpikeSeverity d points) }] else [])
    ++
    (if isHighErrorRate d points then
      [{ Type' := ErrorRateHigh, ServiceName := serviceName,
         Severity := some (latest.Value / d.config.ErrorRateThreshold) }] else [])

/-- The Go test `minDistance > threshold`, where `minDistance : Option ℝ` models the
running minimum seeded with `math.Inf(1)` (`none` is `+∞`, greater than any
finite threshold). -/
def minGt : Option ℝ → ℝ → Prop
  | none, _ => True
  | some d, t => d > t

noncomputable instance (m : Option ℝ) (t : ℝ) : Decidable (minGt m t) := by
  cases m with
  | none => exact isTrue trivial
  | some v => exact inferInstanceAs (Decidable (v > t))

/-- Go `Detector.calculateDynamicThreshold`: 1.0 for an empty cluster list;
otherwise accumulate, over clusters with at least one point, the intra-cluster
variance (mean squared distance to the centroid) weighted by cluster size;
1.0 again if no cluster had points, else `sqrt(pooled) * SensitivityLevel`. -/
noncomputable def calculateDynamicThreshold (d : Detector)
    (clusters : List ml.Cluster) : ℝ :=
  if clusters.length = 0 then 1
  else
    let acc := clusters.foldl
      (fun (st : ℝ × Nat) c =>
        if c.Points.length = 0 then st
        else
          let variance :=
            (c.Points.foldl
              (fun v p =>
                let distance := euclideanDistance p.Features c.Centroid
                v + distance * distance) 0) / (c.Points.length : ℝ)
          (st.1 + variance * (c.Points.length : ℝ), st.2 + c.Points.length))
      (0, 0)
    if acc.2 = 0 then 1
    else Real.sqrt (acc.1 / (acc.2 : ℝ)) * d.config.SensitivityLevel

/-- Go `Detector.detectMLAnomalies`: skip below the window size or with no
extracted features; otherwise compare the latest feature vector's minimum
distance to the baseline centroids against the dynamic threshold, emitting one
behavioral anomaly with severity `minDistance / threshold` when it exceeds it. -/
noncomputable def detectMLAnomalies (d : Detector) (serviceName : String)
    (points : List timeseries.DataPoint) (baselines : List ml.Cluster) :
    List Anomaly :=
  if points.length < d.config.WindowSize then []
  else
    let features := ml.ExtractFeatures points d.config.WindowSize
    if features.length = 0 then []
    else
      let latest := features.getLastD ml.dfltCPoint
      let minDistance := baselines.foldl
        (fun m c =>
          let distance := euclideanDistance latest.Features c.Centroid
          if ml.ltMin distance m then some distance else m)
        none
      let threshold := calculateDynamicThreshold d baselines
      if minGt minDistance threshold then
        [{ Type' := BehavioralAnomaly, ServiceName := serviceName,
           Severity := minDistance.map (fun md => md / threshold) }]
      else []

/-- Go `Detector.LearnBaseline`: error below the window size; otherwise extract
features over the full input, fit k-means, and unconditionally store the
result (possibly nil) as the service's baseline. Returned alongside the
updated detector is the Go error value. -/
noncomputable def LearnBaseline (d : Detector) (serviceName : String)
    (points : List timeseries.DataPoint) : Detector × Option String :=
  if points.length < d.config.WindowSize then
    (d, some "insufficient data points for baseline learning")
  else
    let features := ml.ExtractFeatures points d.config.WindowSize
    let clusters := ml.KMeans d.clusteringEngine features
    ({ d with baselines := fun k => if k = serviceName then some clusters else d.baselines k },
     none)

/-- Go `Detector.DetectAnomalies`: static anomalies, then (when the baselines map
has the service's key) the ML anomalies; the error component is always nil. -/
noncomputable def DetectAnomalies (d : Detector) (serviceName : String)
    (recentPoints : List timeseries.DataPoint) : List Anomaly × Option String :=
  let staticAnomalies := detectStaticAnomalies d serviceName recentPoints
  let mlAnomalies :=
    match d.baselines serviceName with
    | some clusters => detectMLAnomalies d serviceName recentPoints clusters
    | none => []
  (staticAnomalies ++ mlAnomalies, none)

end anomaly

end SM

namespace SMSpec

/-- Claim-worded: the sequence of relative deltas `(v[i]-v[i-1])/v[i-1]` over
consecutive values, a delta with zero denominator treated as 0. -/
noncomputable def relativeDeltas (values : List ℝ) : List ℝ :=
  List.zipWith (fun prev cur => if prev = 0 then 0 else (cur - prev) / prev)
    values values.tail

/-- Claim-worded: sample standard deviation (denominator `n-1`). -/
noncomputable def sampleStdDev (xs : List ℝ) : ℝ :=
  Real.sqrt (((xs.map (fun x => (x - xs.sum / (xs.length : ℝ)) ^ 2)).sum)
    / ((xs.length - 1 : ℕ) : ℝ))

/-- Claim-worded: population standard deviation (denominator `n`). -/
noncomputable def populationStdDev (xs : List ℝ) : ℝ :=
  Real.sqrt (((xs.map (fun x => (x - xs.sum / (xs.length : ℝ)) ^ 2)).sum)
    / ((xs.length : ℕ) : ℝ))

/-- The volatility value claim C2 asserts: sample standard deviation of the
relative deltas, 0 when fewer than 2 deltas exist or the window has fewer
than 2 points. -/
noncomputable def volatilitySample (points : List SM.timeseries.DataPoint) : ℝ :=
  let ds := relativeDeltas (points.map (fun p => p.Value))
  if ds.length < 2 then 0 else sampleStdDev ds

/-- The amended volatility value: population standard deviation of the
relative deltas, same degenerate cases. -/
noncomputable def volatilityPopulation (points : List SM.timeseries.DataPoint) : ℝ :=
  let ds := relativeDeltas (points.map (fun p => p.Value))
  if ds.length < 2 then 0 else populationStdDev ds

/-- Claim-worded: intra-cluster variance = mean squared Euclidean distance of
the cluster's assigned points to its centroid. -/
noncomputable def intraClusterVariance (c : SM.ml.Cluster) : ℝ :=
  ((c.Points.map (fun p => SM.anomaly.euclideanDistance p.Features c.Centroid ^ 2)).sum)
    / (c.Points.length : ℝ)

/-- Total number of assigned points across a baseline's clusters. -/
def totalAssigned (cs : List SM.ml.Cluster) : Nat :=
  (cs.map (fun c => c.Points.length)).sum

/-- Claim-worded: pooled variance = size-weighted mean of the intra-cluster
variances over the clusters with at least one assigned point. -/
noncomputable def pooledVariance (cs : List SM.ml.Cluster) : ℝ :=
  (((cs.filter (fun c => decide (c.Points.length ≠ 0))).map
      (fun c => intraClusterVariance c * (c.Points.length : ℝ))).sum)
    / ((totalAssigned cs : ℕ) : ℝ)

end SMSpec

namespace SMFix

/-- Concrete sample with empty labels. -/
def mkPt (t : Int) (v : ℝ) : SM.timeseries.DataPoint := ⟨t, v, []⟩

/-- Two all-ones samples: enough for a window check with `WindowSize = 2` but
yielding zero feature vectors. -/
def onesPts2 : List SM.timeseries.DataPoint := [mkPt 0 1, mkPt 1 1]

/-- Three all-ones samples: one extracted feature vector at `WindowSize = 2`. -/
def onesPts3 : List SM.timeseries.DataPoint := [mkPt 2 1, mkPt 3 1, mkPt 4 1]

/-- Window whose relative deltas are `[1, 0]`. -/
def volPts : List SM.timeseries.DataPoint := [mkPt 0 1, mkPt 1 2, mkPt 2 2]

/-- Detector for C1: `WindowSize = 2`, `K = 5`, and a previously learned
(non-empty) baseline for service `"svc"`. -/
def cexDetector : SM.anomaly.Detector :=
  { config := { TrafficSpikeThreshold := 2, ErrorRateThreshold := 5,
                WindowSize := 2, SensitivityLevel := 2 },
    clusteringEngine := { K := 5, MaxIter := 100, Tolerance := 0, Features := [] },
    baselines := fun k =>
      if k = "svc" then some [{ Centroid := [0, 0, 0, 0], Points := [] }] else none }

/-- Detector for C3: `ErrorRateThreshold = 1`, no baselines. -/
def errDetector : SM.anomaly.Detector :=
  { config := { TrafficSpikeThreshold := 2, ErrorRateThreshold := 1,
                WindowSize := 10, SensitivityLevel := 2 },
    clusteringEngine := { K := 3, MaxIter := 100, Tolerance := 0, Features := [] },
    baselines := fun _ => none }

/-- A single sample whose value 2 exceeds `errDetector`'s threshold 1. -/
def errPts1 : List SM.timeseries.DataPoint := [mkPt 0 2]

/-- Two samples, latest value 2 exceeding `errDetector`'s threshold 1. -/
def errPts2 : List SM.timeseries.DataPoint := [mkPt 0 0, mkPt 1 2]

/-- One-cluster, one-iteration k-means configuration for concrete runs. -/
def wCfg : SM.ml.KMeansConfig := { K := 1, MaxIter := 1, Tolerance := 0, Features := [] }

/-- One-dimensional feature vector for concrete k-means runs. -/
def wPt : SM.ml.ClusterPoint := { Features := [0], Label := "", Original := none }

/-- Configuration with `K = 2` for the insufficient-points case. -/
def c7Cfg : SM.ml.KMeansConfig := { K := 2, MaxIter := 10, Tolerance := 0, Features := [] }

end SMFix

namespace SM

namespace timeseries

theorem pointsAt_Store_same (s : Storage) (e m : String) (v : ℝ)
    (ls : List (String × String)) (t : Int) :
    pointsAt (Store s e m v ls t) (SKey e m)
      = pointsAt s (SKey e m) ++ [⟨t, v, ls⟩] := by
  simp only [pointsAt, Store]
  cases h : s (SKey e m) <;> simp [h]

theorem pointsAt_Store_other (s : Storage) (e m : String) (v : ℝ)
    (ls : List (String × String)) (t : Int) (k : String) (hk : k ≠ SKey e m) :
    pointsAt (Store s e m v ls t) k = pointsAt s k := by
  simp only [pointsAt, Store]
  rw [if_neg hk]

theorem pointsAt_foldl (ops : List StoreOp) :
    ∀ (s : Storage) (k : String),
      pointsAt (ops.foldl (fun s o => Store s o.entity o.metric o.value o.labels o.now) s) k
        = pointsAt s k ++ keyedSamples ops k := by
  induction ops with
  | nil => intro s k; simp [keyedSamples]
  | cons o rest ih =>
      intro s k
      rw [List.foldl_cons, ih]
      by_cases hk : SKey o.entity o.metric = k
      · subst hk
        rw [pointsAt_Store_same]
        simp [keyedSamples, opPoint]
      · rw [pointsAt_Store_other _ _ _ _ _ _ _ (fun h => hk h.symm)]
        simp [keyedSamples, hk]

/-- After replaying any call sequence, key `k` holds exactly the samples the
calls with that key appended, in order. -/
theorem pointsAt_applyStores (ops : List StoreOp) (k : String) :
    pointsAt (applyStores ops) k = keyedSamples ops k := by
  rw [applyStores, pointsAt_foldl]
  simp [pointsAt, NewStorage]

theorem foldl_filter_append {α : Type} (P : α → Prop) [DecidablePred P] (l : List α) :
    ∀ acc : List α,
      l.foldl (fun acc p => if P p then acc ++ [p] else acc) acc
        = acc ++ l.filter (fun p => decide (P p)) := by
  induction l with
  | nil => intro acc; simp
  | cons x xs ih =>
      intro acc
      by_cases hx : P x <;> simp [List.foldl_cons, hx, ih]

theorem GetTimeRange_eq_filter_pointsAt (s : Storage) (e m : String) (a b : Int) :
    GetTimeRange s e m a b
      = (pointsAt s (SKey e m)).filter
          (fun p => decide (a < p.Timestamp ∧ p.Timestamp < b)) := by
  simp only [GetTimeRange, GetSeries, pointsAt]
  cases h : s (SKey e m)
  · simp
  · exact foldl_filter_append _ _ []

theorem GetLatestN_eq_drop (s : Storage) (e m : String) (n : Nat) :
    GetLatestN s e m n
      = (pointsAt s (SKey e m)).drop ((pointsAt s (SKey e m)).length - n) := by
  simp only [GetLatestN, GetSeries, pointsAt]
  cases h : s (SKey e m)
  · simp
  · rename_i ser
    by_cases hn : ser.Points.length ≤ n
    · simp [hn, Nat.sub_eq_zero_of_le hn]
    · simp [hn]


end timeseries

end SM

/-- C5: over any sequence of appended samples, `GetLatestN` returns exactly the
last `min(n, count)` samples of the (entity, metric) series in original
insertion order — it is the length-`min n count` suffix of the appended
sequence — and in particular the empty sequence when the series is absent. -/
theorem C5_getLatestN_last_min (ops : List SM.timeseries.StoreOp)
    (e m : String) (n : Nat) :
    SM.timeseries.GetLatestN (SM.timeseries.applyStores ops) e m n
        = (SM.timeseries.keyedSamples ops (SM.timeseries.SKey e m)).drop
            ((SM.timeseries.keyedSamples ops (SM.timeseries.SKey e m)).length - n)
      ∧ (SM.timeseries.GetLatestN (SM.timeseries.applyStores ops) e m n).length
          = min n (SM.timeseries.keyedSamples ops (SM.timeseries.SKey e m)).length
      ∧ (SM.timeseries.GetLatestN (SM.timeseries.applyStores ops) e m n).IsSuffix
          (SM.timeseries.keyedSamples ops (SM.timeseries.SKey e m))
      ∧ (SM.timeseries.keyedSamples ops (SM.timeseries.SKey e m) = [] →
          SM.timeseries.GetLatestN (SM.timeseries.applyStores ops) e m n = []) := by
  have hpts := SM.timeseries.pointsAt_applyStores ops (SM.timeseries.SKey e m)
  have hdrop := SM.timeseries.GetLatestN_eq_drop (SM.timeseries.applyStores ops) e m n
  rw [hpts] at hdrop
  refine ⟨hdrop, ?_, ?_, ?_⟩
  · rw [hdrop, List.length_drop]
    omega
  · rw [hdrop]; exact List.drop_suffix _ _
  · intro hemp; rw [hdrop, hemp]; simp

/-- C6: over any sequence of appended samples, `GetTimeRange` returns exactly
the stored samples of the series with `start < timestamp < stop` (strict on
both ends, so boundary samples are excluded), in stored order, and the empty
sequence when the series is absent. -/
theorem C6_getTimeRange_open_interval (ops : List SM.timeseries.StoreOp)
    (e m : String) (a b : Int) :
    SM.timeseries.GetTimeRange (SM.timeseries.applyStores ops) e m a b
        = (SM.timeseries.keyedSamples ops (SM.timeseries.SKey e m)).filter
            (fun p => decide (a < p.Timestamp ∧ p.Timestamp < b))
      ∧ (SM.timeseries.keyedSamples ops (SM.timeseries.SKey e m) = [] →
          SM.timeseries.GetTimeRange (SM.timeseries.applyStores ops) e m a b = []) := by
  have hpts := SM.timeseries.pointsAt_applyStores ops (SM.timeseries.SKey e m)
  have h := SM.timeseries.GetTimeRange_eq_filter_pointsAt
    (SM.timeseries.applyStores ops) e m a b
  rw [hpts] at h
  exact ⟨h, fun hemp => by rw [h, hemp]; simp⟩

/-- C10: `DetectAnomalies` never fails — for every detector state, service
name and input sequence, the error component of the result is nil. -/
theorem C10_detectAnomalies_never_fails (d : SM.anomaly.Detector) (s : String)
    (pts : List SM.timeseries.DataPoint) :
    (SM.anomaly.DetectAnomalies d s pts).2 = none := rfl

/-- C7: `KMeans` on fewer feature vectors than `K` returns the empty (nil)
result; in the total-function embedding there is nothing to raise. -/
theorem C7_kmeans_insufficient_points (cfg : SM.ml.KMeansConfig)
    (ps : List SM.ml.ClusterPoint) (h : ps.length < cfg.K) :
    SM.ml.KMeans cfg ps = [] := by
  simp [SM.ml.KMeans, h]

/-- C7 witness: one point against `K = 2`. -/
theorem C7_witness :
    [SM.ml.dfltCPoint].length < SMFix.c7Cfg.K
      ∧ SM.ml.KMeans SMFix.c7Cfg [SM.ml.dfltCPoint] = [] :=
  ⟨by simp [SMFix.c7Cfg], C7_kmeans_insufficient_points _ _ (by simp [SMFix.c7Cfg])⟩

/-- C8: `KMeans` is deterministic — equal inputs under a fixed configuration
give equal outputs — and initial centroid `i` (for `i < K`, on at least `K`
points) is seeded from the in-bounds input feature vector at index
`i * len(points) / K`, with an empty point list. -/
theorem C8_kmeans_deterministic_seeding (cfg : SM.ml.KMeansConfig)
    (ps qs : List SM.ml.ClusterPoint) (i : Nat) (hq : qs = ps)
    (hlen : cfg.K ≤ ps.length) (hi : i < cfg.K) :
    SM.ml.KMeans cfg qs = SM.ml.KMeans cfg ps
      ∧ i * ps.length / cfg.K < ps.length
      ∧ (SM.ml.initializeClusters cfg ps)[i]?
          = (ps[i * ps.length / cfg.K]?).map
              (fun p => { Centroid := p.Features, Points := [] }) := by
  have hK : 0 < cfg.K := Nat.lt_of_le_of_lt (Nat.zero_le i) hi
  have hplen : 0 < ps.length := Nat.lt_of_lt_of_le hK hlen
  have hidx : i * ps.length / cfg.K < ps.length := by
    rw [Nat.div_lt_iff_lt_mul hK, Nat.mul_comm ps.length cfg.K]
    exact Nat.mul_lt_mul_of_pos_right hi hplen
  refine ⟨by rw [hq], hidx, ?_⟩
  rw [SM.ml.initializeClusters, List.getElem?_map, List.getElem?_range hi]
  simp [List.getElem?_eq_getElem hidx]

/-- C8 witness: `K = 1` on a single one-dimensional feature vector. -/
theorem C8_witness :
    SM.ml.KMeans SMFix.wCfg [SMFix.wPt] = SM.ml.KMeans SMFix.wCfg [SMFix.wPt]
      ∧ 0 * [SMFix.wPt].length / SMFix.wCfg.K < [SMFix.wPt].length
      ∧ (SM.ml.initializeClusters SMFix.wCfg [SMFix.wPt])[0]?
          = ([SMFix.wPt][0 * [SMFix.wPt].length / SMFix.wCfg.K]?).map
              (fun p => { Centroid := p.Features, Points := [] }) :=
  C8_kmeans_deterministic_seeding SMFix.wCfg [SMFix.wPt] [SMFix.wPt] 0 rfl
    (by simp [SMFix.wCfg]) (by simp [SMFix.wCfg])

theorem foldl_add_eq_sum {α : Type} (f : α → ℝ) (l : List α) :
    ∀ a : ℝ, l.foldl (fun s x => s + f x) a = a + (l.map f).sum := by
  induction l with
  | nil => simp
  | cons x xs ih => intro a; simp [List.foldl_cons, ih, add_assoc]

theorem relativeDeltas_eq_changes (pts : List SM.timeseries.DataPoint) :
    SMSpec.relativeDeltas (pts.map (fun p => p.Value))
      = List.zipWith
          (fun prev cur =>
            if prev.Value ≠ 0 then (cur.Value - prev.Value) / prev.Value else 0)
          pts pts.tail := by
  have hfun : (fun (prev cur : SM.timeseries.DataPoint) =>
        if prev.Value = 0 then (0:ℝ) else (cur.Value - prev.Value) / prev.Value)
      = (fun prev cur =>
        if prev.Value ≠ 0 then (cur.Value - prev.Value) / prev.Value else 0) := by
    funext a b
    by_cases h : a.Value = 0 <;> simp [h]
  rw [SMSpec.relativeDeltas, ← List.map_tail, List.zipWith_map, hfun]

/-- C2 counterexample: on the window with values `[1, 2, 2]` (relative deltas
`[1, 0]`) the code returns the population standard deviation `1/2`, not the
sample standard deviation `sqrt(1/2)` the claim asserts. -/
theorem C2_cex_volatility_not_sample_std :
    SM.ml.calculateVolatility SMFix.volPts ≠ SMSpec.volatilitySample SMFix.volPts := by
  have hL : SM.ml.calculateVolatility SMFix.volPts = Real.sqrt (1/4) := by
    simp only [SM.ml.calculateVolatility, SMFix.volPts, SMFix.mkPt]
    norm_num
  have hR : SMSpec.volatilitySample SMFix.volPts = Real.sqrt (1/2) := by
    simp only [SMSpec.volatilitySample, SMSpec.relativeDeltas, SMSpec.sampleStdDev,
      SMFix.volPts, SMFix.mkPt]
    norm_num
  have e1 : Real.sqrt (1/4) = 1/2 := by
    rw [show (1/4 : ℝ) = (1/2)^2 by norm_num, Real.sqrt_sq (by norm_num : (0:ℝ) ≤ 1/2)]
  rw [hL, hR, e1]
  intro h
  have h2 := Real.sq_sqrt (show (0:ℝ) ≤ 1/2 by norm_num)
  rw [← h] at h2
  norm_num at h2

/-- C2 (amended): `calculateVolatility` returns the **population** standard
deviation (denominator `n`) of the relative deltas `(v[i]-v[i-1])/v[i-1]`
(zero-denominator deltas treated as 0), and 0 when fewer than 2 deltas exist
or the window has fewer than 2 points. -/
theorem C2_volatility_population_std (pts : List SM.timeseries.DataPoint) :
    SM.ml.calculateVolatility pts = SMSpec.volatilityPopulation pts := by
  have hrel := relativeDeltas_eq_changes pts
  have hlen : (SMSpec.relativeDeltas (pts.map (fun p => p.Value))).length
      = pts.length - 1 := by
    simp only [SMSpec.relativeDeltas, List.length_zipWith, List.length_tail,
      List.length_map]
    omega
  by_cases h2 : pts.length < 2
  · have hds : (SMSpec.relativeDeltas (pts.map (fun p => p.Value))).length < 2 := by omega
    simp only [SM.ml.calculateVolatility, SMSpec.volatilityPopulation, if_pos h2,
      if_pos hds]
  · by_cases h3 : pts.length < 3
    · -- exactly two points: a single delta, both sides are 0
      have hone : (SMSpec.relativeDeltas (pts.map (fun p => p.Value))).length = 1 := by
        omega
      obtain ⟨c, hc⟩ := List.length_eq_one.mp hone
      rw [hc] at hrel
      have hds : (SMSpec.relativeDeltas (pts.map (fun p => p.Value))).length < 2 := by
        omega
      simp only [SM.ml.calculateVolatility, SMSpec.volatilityPopulation, if_neg h2,
        if_pos hds, ← hrel, hc]
      norm_num
    · -- at least two deltas: both sides are sqrt of the same pooled expression
      have hds : ¬ (SMSpec.relativeDeltas (pts.map (fun p => p.Value))).length < 2 := by
        omega
      simp only [SM.ml.calculateVolatility, SMSpec.volatilityPopulation, if_neg h2,
        if_neg hds, ← hrel, SMSpec.populationStdDev]
      have hadd : (SMSpec.relativeDeltas (pts.map (fun p => p.Value))).foldl
          (fun s c => s + c) 0
          = (SMSpec.relativeDeltas (pts.map (fun p => p.Value))).sum := by
        rw [foldl_add_eq_sum (fun c => c)]
        simp
      rw [hadd]
      congr 1
      rw [foldl_add_eq_sum]
      congr 1
      simp only [zero_add, pow_two]

theorem dynThreshold_fold (cs : List SM.ml.Cluster) :
    ∀ (a : ℝ) (t : Nat),
      cs.foldl
        (fun (st : ℝ × Nat) c =>
          if c.Points.length = 0 then st
          else
            (st.1 + (c.Points.foldl
                (fun v p =>
                  v + SM.anomaly.euclideanDistance p.Features c.Centroid
                        * SM.anomaly.euclideanDistance p.Features c.Centroid) 0)
              / (c.Points.length : ℝ) * (c.Points.length : ℝ),
             st.2 + c.Points.length))
        (a, t)
      = (a + ((cs.filter (fun c => decide (c.Points.length ≠ 0))).map
            (fun c => SMSpec.intraClusterVariance c * (c.Points.length : ℝ))).sum,
         t + SMSpec.totalAssigned cs) := by
  induction cs with
  | nil => intro a t; simp [SMSpec.totalAssigned]
  | cons c rest ih =>
      intro a t
      simp only [List.foldl_cons]
      by_cases hc : c.Points.length = 0
      · rw [if_pos hc, ih]
        simp [SMSpec.totalAssigned, List.filter_cons, hc]
      · rw [if_neg hc, ih]
        have hfc : List.filter (fun c => decide (c.Points.length ≠ 0)) (c :: rest)
            = c :: List.filter (fun c => decide (c.Points.length ≠ 0)) rest := by
          simp [List.filter_cons, hc]
        rw [hfc, Prod.mk.injEq]
        refine ⟨?_, ?_⟩
        · simp only [List.map_cons, List.sum_cons]
          rw [foldl_add_eq_sum, SMSpec.intraClusterVariance]
          simp only [zero_add, pow_two]
          ring
        · simp only [SMSpec.totalAssigned, List.map_cons, List.sum_cons]
          omega

/-- C9: the dynamic ML threshold equals `sqrt(pooledVariance) * sensitivity`,
with the pooled variance the size-weighted mean of the intra-cluster
variances (mean squared Euclidean distance of assigned points to their
centroid) over clusters with at least one assigned point, and exactly 1.0 for
a baseline with zero total assigned points. -/
theorem C9_dynamic_threshold_pooled (d : SM.anomaly.Detector)
    (cs : List SM.ml.Cluster) :
    SM.anomaly.calculateDynamicThreshold d cs
      = if SMSpec.totalAssigned cs = 0 then 1
        else Real.sqrt (SMSpec.pooledVariance cs) * d.config.SensitivityLevel := by
  by_cases hnil : cs.length = 0
  · have : cs = [] := List.length_eq_zero.mp hnil
    subst this
    simp [SM.anomaly.calculateDynamicThreshold, SMSpec.totalAssigned]
  · simp only [SM.anomaly.calculateDynamicThreshold, if_neg hnil]
    rw [dynThreshold_fold]
    simp only [zero_add, Nat.zero_add]
    by_cases ht : SMSpec.totalAssigned cs = 0
    · simp [ht]
    · rw [if_neg ht, if_neg ht, SMSpec.pooledVariance]

theorem extractFeatures_length (pts : List SM.timeseries.DataPoint) (w : Nat) :
    (SM.ml.ExtractFeatures pts w).length = pts.length - w := by
  simp [SM.ml.ExtractFeatures]

theorem detectML_types (d : SM.anomaly.Detector) (s : String)
    (pts : List SM.timeseries.DataPoint) (cs : List SM.ml.Cluster) :
    ∀ a ∈ SM.anomaly.detectMLAnomalies d s pts cs,
      a.Type' = SM.anomaly.BehavioralAnomaly := by
  intro a ha
  simp only [SM.anomaly.detectMLAnomalies] at ha
  split_ifs at ha <;> simp_all

theorem detectML_filter_ne (d : SM.anomaly.Detector) (s : String)
    (pts : List SM.timeseries.DataPoint) (cs : List SM.ml.Cluster) (ty : String)
    (hty : ty ≠ SM.anomaly.BehavioralAnomaly) :
    (SM.anomaly.detectMLAnomalies d s pts cs).filter
      (fun a => decide (a.Type' = ty)) = [] := by
  rw [List.filter_eq_nil_iff]
  intro a ha
  simp only [detectML_types d s pts cs a ha, decide_eq_true_eq]
  exact fun h => hty h.symm

theorem detectStatic_filter_behavioral (d : SM.anomaly.Detector) (s : String)
    (pts : List SM.timeseries.DataPoint) :
    (SM.anomaly.detectStaticAnomalies d s pts).filter
      (fun a => decide (a.Type' = SM.anomaly.BehavioralAnomaly)) = [] := by
  simp only [SM.anomaly.detectStaticAnomalies]
  split_ifs <;>
    simp [SM.anomaly.TrafficSpike, SM.anomaly.ErrorRateHigh, SM.anomaly.BehavioralAnomaly]

theorem detectML_empty_baseline (d : SM.anomaly.Detector) (s : String)
    (pts : List SM.timeseries.DataPoint) :
    SM.anomaly.detectMLAnomalies d s pts []
      = if d.config.WindowSize < pts.length then
          [{ Type' := SM.anomaly.BehavioralAnomaly, ServiceName := s, Severity := none }]
        else [] := by
  have hfl := extractFeatures_length pts d.config.WindowSize
  simp only [SM.anomaly.detectMLAnomalies]
  by_cases h1 : pts.length < d.config.WindowSize
  · rw [if_pos h1, if_neg (by omega)]
  · rw [if_neg h1]
    by_cases h2 : (SM.ml.ExtractFeatures pts d.config.WindowSize).length = 0
    · rw [if_pos h2, if_neg (by omega)]
    · rw [if_neg h2]
      simp only [List.foldl_nil]
      have hgt : SM.anomaly.minGt none (SM.anomaly.calculateDynamicThreshold d []) := by
        simp [SM.anomaly.minGt]
      rw [if_pos hgt, if_pos (show d.config.WindowSize < pts.length by omega)]
      simp

/-- C3 counterexample: a non-empty single-point input whose latest value 2
exceeds the threshold 1, yet the detection call emits no anomaly at all — the
static path returns early on fewer than 2 points. -/
theorem C3_cex_single_point_no_anomaly :
    SMFix.errDetector.config.ErrorRateThreshold < (SMFix.mkPt 0 2).Value
      ∧ (SM.anomaly.DetectAnomalies SMFix.errDetector "svc" SMFix.errPts1).1 = [] := by
  constructor
  · norm_num [SMFix.errDetector, SMFix.mkPt]
  · simp [SM.anomaly.DetectAnomalies, SM.anomaly.detectStaticAnomalies,
      SMFix.errDetector, SMFix.errPts1]

/-- C3 (amended): for every input of **at least 2** points, a detection call
emits exactly one high-error-rate anomaly with severity
`latestValue / errorRateThreshold` when the latest value exceeds the
threshold, and none otherwise. -/
theorem C3_high_error_rate (d : SM.anomaly.Detector) (s : String)
    (pts : List SM.timeseries.DataPoint) (latest : SM.timeseries.DataPoint)
    (h2 : 2 ≤ pts.length) (hl : pts.getLast? = some latest) :
    ((SM.anomaly.DetectAnomalies d s pts).1).filter
        (fun a => decide (a.Type' = SM.anomaly.ErrorRateHigh))
      = if d.config.ErrorRateThreshold < latest.Value then
          [{ Type' := SM.anomaly.ErrorRateHigh, ServiceName := s,
             Severity := some (latest.Value / d.config.ErrorRateThreshold) }]
        else [] := by
  have hml : ∀ cs, (SM.anomaly.detectMLAnomalies d s pts cs).filter
      (fun a => decide (a.Type' = SM.anomaly.ErrorRateHigh)) = [] := fun cs =>
    detectML_filter_ne d s pts cs _
      (by simp [SM.anomaly.ErrorRateHigh, SM.anomaly.BehavioralAnomaly])
  have hlast : pts.getLastD SM.timeseries.dfltPoint = latest := by
    rw [List.getLastD_eq_getLast?, hl]; rfl
  have hiff : SM.anomaly.isHighErrorRate d pts ↔
      d.config.ErrorRateThreshold < latest.Value := by
    simp only [SM.anomaly.isHighErrorRate,
      if_neg (show ¬ pts.length = 0 by omega), hlast]
  have hstatic : (SM.anomaly.detectStaticAnomalies d s pts).filter
      (fun a => decide (a.Type' = SM.anomaly.ErrorRateHigh))
      = if d.config.ErrorRateThreshold < latest.Value then
          [{ Type' := SM.anomaly.ErrorRateHigh, ServiceName := s,
             Severity := some (latest.Value / d.config.ErrorRateThreshold) }]
        else [] := by
    simp only [SM.anomaly.detectStaticAnomalies,
      if_neg (show ¬ pts.length < 2 by omega), hlast, List.filter_append]
    rw [apply_ite (List.filter
        (fun (a : SM.anomaly.Anomaly) => decide (a.Type' = SM.anomaly.ErrorRateHigh))),
      apply_ite (List.filter
        (fun (a : SM.anomaly.Anomaly) => decide (a.Type' = SM.anomaly.ErrorRateHigh)))]
    simp only [List.filter_cons, List.filter_nil, SM.anomaly.TrafficSpike,
      SM.anomaly.ErrorRateHigh]
    norm_num
    rw [if_congr hiff rfl rfl]
    rw [if_neg (show ¬ ("traffic_spike" = "error_rate_high") by decide), ite_self,
      List.nil_append]
  simp only [SM.anomaly.DetectAnomalies, List.filter_append]
  cases hb : d.baselines s with
  | none => simp only [hb]; rw [List.filter_nil, List.append_nil]; exact hstatic
  | some cs => simp only [hb]; rw [hml cs, List.append_nil]; exact hstatic

/-- C3 witness: two points with latest value 2 against threshold 1. -/
theorem C3_witness :
    (SM.anomaly.DetectAnomalies SMFix.errDetector "svc" SMFix.errPts2).1.filter
        (fun a => decide (a.Type' = SM.anomaly.ErrorRateHigh))
      = if SMFix.errDetector.config.ErrorRateThreshold < (SMFix.mkPt 1 2).Value then
          [{ Type' := SM.anomaly.ErrorRateHigh, ServiceName := "svc",
             Severity := some ((SMFix.mkPt 1 2).Value
               / SMFix.errDetector.config.ErrorRateThreshold) }]
        else [] :=
  C3_high_error_rate SMFix.errDetector "svc" SMFix.errPts2 (SMFix.mkPt 1 2)
    (by simp [SMFix.errPts2]) (by simp [SMFix.errPts2])

theorem learnBaseline_insufficient_features (d : SM.anomaly.Detector) (s : String)
    (pts : List SM.timeseries.DataPoint)
    (h1 : d.config.WindowSize ≤ pts.length)
    (h2 : (SM.ml.ExtractFeatures pts d.config.WindowSize).length
            < d.clusteringEngine.K) :
    (SM.anomaly.LearnBaseline d s pts).2 = none
      ∧ (SM.anomaly.LearnBaseline d s pts).1.config = d.config
      ∧ (SM.anomaly.LearnBaseline d s pts).1.clusteringEngine = d.clusteringEngine
      ∧ (SM.anomaly.LearnBaseline d s pts).1.baselines s = some [] := by
  have hnl : ¬ pts.length < d.config.WindowSize := by omega
  have hkm : SM.ml.KMeans d.clusteringEngine
      (SM.ml.ExtractFeatures pts d.config.WindowSize) = [] := by
    simp [SM.ml.KMeans, h2]
  simp [SM.anomaly.LearnBaseline, hnl, hkm]

/-- C1 counterexample: a detector with a previously learned baseline for
`"svc"` undergoes a `LearnBaseline` call that passes the windowSize check (2
points, window 2) but yields 0 < K feature vectors; afterwards the stored
baseline has changed (overwritten by the empty clustering result), and a
subsequent `DetectAnomalies` call with 3 points emits a behavioral anomaly —
the ML path is not skipped, contradicting the claim. -/
theorem C1_cex_baseline_destroyed_and_anomaly_emitted :
    (SM.anomaly.LearnBaseline SMFix.cexDetector "svc" SMFix.onesPts2).1.baselines "svc"
        ≠ SMFix.cexDetector.baselines "svc"
      ∧ 0 < (((SM.anomaly.DetectAnomalies
              (SM.anomaly.LearnBaseline SMFix.cexDetector "svc" SMFix.onesPts2).1
              "svc" SMFix.onesPts3).1).filter
            (fun a => decide (a.Type' = SM.anomaly.BehavioralAnomaly))).length := by
  have h1 : SMFix.cexDetector.config.WindowSize ≤ SMFix.onesPts2.length := by
    simp [SMFix.cexDetector, SMFix.onesPts2]
  have h2 : (SM.ml.ExtractFeatures SMFix.onesPts2
      SMFix.cexDetector.config.WindowSize).length
      < SMFix.cexDetector.clusteringEngine.K := by
    rw [extractFeatures_length]
    simp [SMFix.cexDetector, SMFix.onesPts2]
  obtain ⟨he, hcfg, hce, hbl⟩ := learnBaseline_insufficient_features _ "svc" _ h1 h2
  constructor
  · rw [hbl]
    simp [SMFix.cexDetector]
  · simp only [SM.anomaly.DetectAnomalies, List.filter_append, List.length_append, hbl]
    rw [detectStatic_filter_behavioral, detectML_empty_baseline, hcfg]
    rw [if_pos (show SMFix.cexDetector.config.WindowSize < SMFix.onesPts3.length by
      simp [SMFix.cexDetector, SMFix.onesPts3])]
    simp

/-- C1 (amended): when a `LearnBaseline` call passes the windowSize check but
yields fewer feature vectors than `K`, the clustering step returns the empty
result, the call succeeds (nil error) and stores that empty result as the
entity's baseline — destroying any previously learned baseline — and a
subsequent `DetectAnomalies` call for the entity emits exactly one behavioral
anomaly whenever its input has more than windowSize points (the `+∞` minimum
distance exceeds the fallback threshold), and none otherwise; the static path
is unaffected. -/
theorem C1_empty_clustering_behavior (d : SM.anomaly.Detector) (s : String)
    (pts pts2 : List SM.timeseries.DataPoint)
    (h1 : d.config.WindowSize ≤ pts.length)
    (h2 : (SM.ml.ExtractFeatures pts d.config.WindowSize).length
            < d.clusteringEngine.K) :
    (SM.anomaly.LearnBaseline d s pts).2 = none
      ∧ (SM.anomaly.LearnBaseline d s pts).1.baselines s = some []
      ∧ (((SM.anomaly.DetectAnomalies (SM.anomaly.LearnBaseline d s pts).1 s pts2).1).filter
            (fun a => decide (a.Type' = SM.anomaly.BehavioralAnomaly))).length
          = if d.config.WindowSize < pts2.length then 1 else 0 := by
  obtain ⟨he, hcfg, hce, hbl⟩ := learnBaseline_insufficient_features d s pts h1 h2
  refine ⟨he, hbl, ?_⟩
  simp only [SM.anomaly.DetectAnomalies, List.filter_append, List.length_append, hbl]
  rw [detectStatic_filter_behavioral, detectML_empty_baseline, hcfg]
  by_cases hlen : d.config.WindowSize < pts2.length
  · rw [if_pos hlen, if_pos hlen]
    simp
  · rw [if_neg hlen, if_neg hlen]
    simp

/-- C1 witness: the concrete detector of the counterexample, detecting on a
3-point input after the degenerate learn. -/
theorem C1_witness :
    (SM.anomaly.LearnBaseline SMFix.cexDetector "svc2" SMFix.onesPts2).2 = none
      ∧ (SM.anomaly.LearnBaseline SMFix.cexDetector "svc2" SMFix.onesPts2).1.baselines "svc2"
          = some []
      ∧ (((SM.anomaly.DetectAnomalies
              (SM.anomaly.LearnBaseline SMFix.cexDetector "svc2" SMFix.onesPts2).1
              "svc2" SMFix.onesPts3).1).filter
            (fun a => decide (a.Type' = SM.anomaly.BehavioralAnomaly))).length
          = if SMFix.cexDetector.config.WindowSize < SMFix.onesPts3.length then 1 else 0 :=
  C1_empty_clustering_behavior SMFix.cexDetector "svc2" SMFix.onesPts2 SMFix.onesPts3
    (by simp [SMFix.cexDetector, SMFix.onesPts2])
    (by rw [extractFeatures_length]; simp [SMFix.cexDetector, SMFix.onesPts2])

theorem nearest_fold_lt (feat : List ℝ) :
    ∀ (l : List (List ℝ)) (st : ℕ × Option ℝ × ℕ), st.1 < st.2.2 →
      (l.foldl (fun st c =>
          if SM.ml.ltMin (SM.ml.euclideanDistance feat c) st.2.1
          then (st.2.2, some (SM.ml.euclideanDistance feat c), st.2.2 + 1)
          else (st.1, st.2.1, st.2.2 + 1)) st).1
        < (l.foldl (fun st c =>
          if SM.ml.ltMin (SM.ml.euclideanDistance feat c) st.2.1
          then (st.2.2, some (SM.ml.euclideanDistance feat c), st.2.2 + 1)
          else (st.1, st.2.1, st.2.2 + 1)) st).2.2
      ∧ (l.foldl (fun st c =>
          if SM.ml.ltMin (SM.ml.euclideanDistance feat c) st.2.1
          then (st.2.2, some (SM.ml.euclideanDistance feat c), st.2.2 + 1)
          else (st.1, st.2.1, st.2.2 + 1)) st).2.2 = st.2.2 + l.length := by
  intro l
  induction l with
  | nil => intro st h; exact ⟨h, by simp⟩
  | cons c rest ih =>
      intro st h
      rw [List.foldl_cons]
      have hstep : (if SM.ml.ltMin (SM.ml.euclideanDistance feat c) st.2.1
          then (st.2.2, some (SM.ml.euclideanDistance feat c), st.2.2 + 1)
          else (st.1, st.2.1, st.2.2 + 1)).1
          < (if SM.ml.ltMin (SM.ml.euclideanDistance feat c) st.2.1
          then (st.2.2, some (SM.ml.euclideanDistance feat c), st.2.2 + 1)
          else (st.1, st.2.1, st.2.2 + 1)).2.2 := by
        split <;> simp <;> omega
      obtain ⟨ha, hb⟩ := ih _ hstep
      refine ⟨ha, ?_⟩
      rw [hb]
      have : (if SM.ml.ltMin (SM.ml.euclideanDistance feat c) st.2.1
          then (st.2.2, some (SM.ml.euclideanDistance feat c), st.2.2 + 1)
          else (st.1, st.2.1, st.2.2 + 1)).2.2 = st.2.2 + 1 := by
        split <;> simp
      rw [this, List.length_cons]
      omega

theorem nearestIdx_lt (cents : List (List ℝ)) (feat : List ℝ) (hne : cents ≠ []) :
    SM.ml.nearestIdx cents feat < cents.length := by
  obtain ⟨c, rest, rfl⟩ := List.exists_cons_of_ne_nil hne
  simp only [SM.ml.nearestIdx, List.foldl_cons]
  have hfirst : ((0, none, 0) : ℕ × Option ℝ × ℕ).1 < 1 := Nat.zero_lt_one
  have hst : (if SM.ml.ltMin (SM.ml.euclideanDistance feat c) (none : Option ℝ)
      then ((0:ℕ), some (SM.ml.euclideanDistance feat c), (0:ℕ) + 1)
      else ((0:ℕ), (none : Option ℝ), (0:ℕ) + 1)).1
      < (if SM.ml.ltMin (SM.ml.euclideanDistance feat c) (none : Option ℝ)
      then ((0:ℕ), some (SM.ml.euclideanDistance feat c), (0:ℕ) + 1)
      else ((0:ℕ), (none : Option ℝ), (0:ℕ) + 1)).2.2 := by
    split <;> simp
  obtain ⟨ha, hb⟩ := nearest_fold_lt feat rest _ hst
  rw [List.length_cons]
  have h22 : (if SM.ml.ltMin (SM.ml.euclideanDistance feat c) (none : Option ℝ)
      then ((0:ℕ), some (SM.ml.euclideanDistance feat c), (0:ℕ) + 1)
      else ((0:ℕ), (none : Option ℝ), (0:ℕ) + 1)).2.2 = 1 := by
    split <;> simp
  rw [h22] at hb
  omega

theorem assignPoints_fold (ps : List SM.ml.ClusterPoint) :
    ∀ (cur : List SM.ml.Cluster), cur ≠ [] →
      ((ps.foldl (fun cs p =>
          cs.set (SM.ml.nearestIdx (cs.map (fun c => c.Centroid)) p.Features)
            { cs.getD (SM.ml.nearestIdx (cs.map (fun c => c.Centroid)) p.Features)
                SM.ml.dfltCluster with
              Points := (cs.getD (SM.ml.nearestIdx (cs.map (fun c => c.Centroid)) p.Features)
                SM.ml.dfltCluster).Points ++ [p] }) cur).map (fun c => c.Centroid)
          = cur.map (fun c => c.Centroid))
      ∧ ∀ i : Nat,
        ((ps.foldl (fun cs p =>
          cs.set (SM.ml.nearestIdx (cs.map (fun c => c.Centroid)) p.Features)
            { cs.getD (SM.ml.nearestIdx (cs.map (fun c => c.Centroid)) p.Features)
                SM.ml.dfltCluster with
              Points := (cs.getD (SM.ml.nearestIdx (cs.map (fun c => c.Centroid)) p.Features)
                SM.ml.dfltCluster).Points ++ [p] }) cur)[i]?).map (fun c => c.Points)
          = (cur[i]?).map (fun c => c.Points ++ ps.filter
              (fun p => decide
                (SM.ml.nearestIdx (cur.map (fun c => c.Centroid)) p.Features = i))) := by
  induction ps with
  | nil =>
      intro cur _
      refine ⟨rfl, fun i => ?_⟩
      cases h : cur[i]? <;> simp [h]
  | cons p rest ih =>
      intro cur hne
      have hcne : cur.map (fun c => c.Centroid) ≠ [] := by
        simpa [List.map_eq_nil_iff] using hne
      have hidx : SM.ml.nearestIdx (cur.map (fun c => c.Centroid)) p.Features
          < cur.length := by
        have h := nearestIdx_lt (cur.map (fun c => c.Centroid)) p.Features hcne
        simpa using h
      set idx := SM.ml.nearestIdx (cur.map (fun c => c.Centroid)) p.Features with hidxdef
      set newc : SM.ml.Cluster :=
        { cur.getD idx SM.ml.dfltCluster with
          Points := (cur.getD idx SM.ml.dfltCluster).Points ++ [p] } with hnewcdef
      have hgetD : cur.getD idx SM.ml.dfltCluster = cur[idx] := by
        rw [List.getD_eq_getElem?_getD, List.getElem?_eq_getElem hidx]
        rfl
      have hne' : cur.set idx newc ≠ [] := by
        intro h
        have hl := congrArg List.length h
        rw [List.length_set] at hl
        exact hne (List.length_eq_zero.mp hl)
      have hcent' : (cur.set idx newc).map (fun c => c.Centroid)
          = cur.map (fun c => c.Centroid) := by
        rw [List.map_set]
        apply List.ext_getElem?
        intro j
        by_cases hj : idx = j
        · subst hj
          rw [List.getElem?_set_self (by simpa using hidx), List.getElem?_map,
            List.getElem?_eq_getElem hidx]
          simp [hnewcdef, List.getElem?_eq_getElem hidx]
        · rw [List.getElem?_set_ne hj]
      obtain ⟨ihc, ihp⟩ := ih (cur.set idx newc) hne'
      simp only [List.foldl_cons]
      constructor
      · rw [← hidxdef, ← hnewcdef] at *
        rw [ihc, hcent']
      · intro i
        rw [← hidxdef, ← hnewcdef]
        rw [ihp i]
        simp only [hcent']
        rw [List.filter_cons]
        by_cases hi : idx = i
        · subst hi
          rw [List.getElem?_set_self hidx, List.getElem?_eq_getElem hidx]
          simp only [← hidxdef, decide_eq_true_eq, if_pos rfl, Option.map_some']
          simp [hnewcdef, List.getElem?_eq_getElem hidx, List.append_assoc]
        · rw [List.getElem?_set_ne hi]
          have hd : decide (idx = i) = false := by
            simp [hi]
          rw [← hidxdef, if_neg (by simp [hi])]

theorem sum_range_ite (L j c : Nat) :
    ((List.range L).map (fun i => if j = i then c else 0)).sum
      = if j < L then c else 0 := by
  induction L with
  | zero => simp
  | succ n ih =>
      rw [List.range_succ, List.map_append, List.sum_append, ih]
      simp only [List.map_cons, List.map_nil, List.sum_cons, List.sum_nil]
      split_ifs <;> omega

theorem join_filter_range_perm {α : Type} (f : α → Nat) (L : Nat) (ps : List α)
    (hf : ∀ p ∈ ps, f p < L) :
    (((List.range L).map (fun i => ps.filter (fun p => decide (f p = i)))).flatten).Perm
      ps := by
  letI := Classical.decEq α
  rw [List.perm_iff_count]
  intro a
  rw [List.count_flatten, List.map_map]
  by_cases ha : a ∈ ps
  · have hfa : f a < L := hf a ha
    have hcount : ∀ i ∈ List.range L,
        ((fun l => List.count a l) ∘ (fun i => ps.filter (fun p => decide (f p = i)))) i
          = (fun i => if f a = i then List.count a ps else 0) i := by
      intro i _
      simp only [Function.comp_apply]
      by_cases he : f a = i
      · rw [if_pos he]
        exact List.count_filter (by simp [he])
      · rw [if_neg he, List.count_eq_zero]
        intro hmem
        rw [List.mem_filter] at hmem
        exact he (by simpa using hmem.2)
    rw [List.map_congr_left hcount, sum_range_ite, if_pos hfa]
  · rw [List.count_eq_zero_of_not_mem ha]
    apply List.sum_eq_zero
    intro x hx
    rw [List.mem_map] at hx
    obtain ⟨i, _, rfl⟩ := hx
    simp only [Function.comp_apply]
    rw [List.count_eq_zero]
    intro hmem
    exact ha (List.mem_filter.mp hmem).1

theorem assignPoints_spec (ps : List SM.ml.ClusterPoint) (cs : List SM.ml.Cluster)
    (hne : cs ≠ []) :
    ((SM.ml.assignPointsToClusters ps cs).map (fun c => c.Centroid)
        = cs.map (fun c => c.Centroid))
    ∧ ∀ i : Nat, ((SM.ml.assignPointsToClusters ps cs)[i]?).map (fun c => c.Points)
        = (cs[i]?).map (fun _ => ps.filter
            (fun p => decide
              (SM.ml.nearestIdx (cs.map (fun c => c.Centroid)) p.Features = i))) := by
  have hclne : cs.map (fun c => { c with Points := ([] : List SM.ml.ClusterPoint) }) ≠ [] := by
    simpa [List.map_eq_nil_iff] using hne
  have hclcent : (cs.map (fun c => { c with Points := ([] : List SM.ml.ClusterPoint) })).map
      (fun c => c.Centroid) = cs.map (fun c => c.Centroid) := by
    rw [List.map_map]
    rfl
  obtain ⟨hc, hp⟩ := assignPoints_fold ps
    (cs.map (fun c => { c with Points := ([] : List SM.ml.ClusterPoint) })) hclne
  constructor
  · show (SM.ml.assignPointsToClusters ps cs).map (fun c => c.Centroid) = _
    simp only [SM.ml.assignPointsToClusters]
    rw [hc, hclcent]
  · intro i
    simp only [SM.ml.assignPointsToClusters]
    rw [hp i]
    simp only [hclcent]
    rw [List.getElem?_map]
    cases cs[i]? <;> simp

theorem updateCentroids_points (cs : List SM.ml.Cluster) :
    (SM.ml.updateCentroids cs).map (fun c => c.Points)
      = cs.map (fun c => c.Points) := by
  simp only [SM.ml.updateCentroids, List.map_map]
  apply List.map_congr_left
  intro c _
  simp only [Function.comp_apply]
  split <;> rfl

theorem updateCentroids_centroid_length (cs : List SM.ml.Cluster) :
    (SM.ml.updateCentroids cs).map (fun c => c.Centroid.length)
      = cs.map (fun c => c.Centroid.length) := by
  simp only [SM.ml.updateCentroids, List.map_map]
  apply List.map_congr_left
  intro c _
  simp only [Function.comp_apply]
  split
  · rfl
  · simp

theorem assignPoints_length (ps : List SM.ml.ClusterPoint) (cs : List SM.ml.Cluster)
    (hne : cs ≠ []) :
    (SM.ml.assignPointsToClusters ps cs).length = cs.length := by
  have h := (assignPoints_spec ps cs hne).1
  have := congrArg List.length h
  simpa using this

set_option maxHeartbeats 1000000 in
theorem onepass_points_perm (ps : List SM.ml.ClusterPoint) (cs : List SM.ml.Cluster)
    (hne : cs ≠ []) :
    (((SM.ml.updateCentroids (SM.ml.assignPointsToClusters ps cs)).map
        (fun c => c.Points)).flatten).Perm ps := by
  rw [updateCentroids_points]
  have hcne : cs.map (fun c => c.Centroid) ≠ [] := by
    simpa [List.map_eq_nil_iff] using hne
  obtain ⟨hcent, hpts⟩ := assignPoints_spec ps cs hne
  have hlen : (SM.ml.assignPointsToClusters ps cs).length = cs.length :=
    assignPoints_length ps cs hne
  have hmap : (SM.ml.assignPointsToClusters ps cs).map (fun c => c.Points)
      = (List.range cs.length).map (fun i => ps.filter
          (fun p => decide
            (SM.ml.nearestIdx (cs.map (fun c => c.Centroid)) p.Features = i))) := by
    apply List.ext_getElem?
    intro j
    rw [List.getElem?_map, List.getElem?_map]
    by_cases hj : j < cs.length
    · rw [List.getElem?_range hj, hpts j, List.getElem?_eq_getElem hj]
      simp
    · have h1 : (SM.ml.assignPointsToClusters ps cs).length ≤ j := by rw [hlen]; omega
      have h2 : (List.range cs.length).length ≤ j := by
        simpa using (by omega : cs.length ≤ j)
      rw [List.getElem?_eq_none h1, List.getElem?_eq_none h2]
      rfl
  rw [hmap]
  apply join_filter_range_perm
  intro p _
  have hlt := nearestIdx_lt (cs.map (fun c => c.Centroid)) p.Features hcne
  simpa using hlt

theorem onepass_facts (ps : List SM.ml.ClusterPoint) (cs : List SM.ml.Cluster)
    (dim : Nat) (hne : cs ≠ []) (hdim : ∀ c ∈ cs, c.Centroid.length = dim) :
    SM.ml.updateCentroids (SM.ml.assignPointsToClusters ps cs) ≠ []
      ∧ (((SM.ml.updateCentroids (SM.ml.assignPointsToClusters ps cs)).map
          (fun c => c.Points)).flatten).Perm ps
      ∧ ∀ c ∈ SM.ml.updateCentroids (SM.ml.assignPointsToClusters ps cs),
          c.Centroid.length = dim := by
  have hAlen : (SM.ml.assignPointsToClusters ps cs).length = cs.length :=
    assignPoints_length ps cs hne
  have hUne : SM.ml.updateCentroids (SM.ml.assignPointsToClusters ps cs) ≠ [] := by
    intro h
    have := congrArg List.length h
    simp only [SM.ml.updateCentroids, List.length_map, List.length_nil] at this
    rw [hAlen] at this
    exact hne (List.length_eq_zero.mp this)
  refine ⟨hUne, onepass_points_perm ps cs hne, ?_⟩
  intro c' hc'
  have h1 : c'.Centroid.length
      ∈ (SM.ml.updateCentroids (SM.ml.assignPointsToClusters ps cs)).map
        (fun c => c.Centroid.length) :=
    List.mem_map_of_mem _ hc'
  rw [updateCentroids_centroid_length] at h1
  have h2 : (SM.ml.assignPointsToClusters ps cs).map (fun c => c.Centroid.length)
      = cs.map (fun c => c.Centroid.length) := by
    have h := congrArg (List.map List.length) (assignPoints_spec ps cs hne).1
    simpa [List.map_map] using h
  rw [h2] at h1
  obtain ⟨c0, hc0, heq⟩ := List.mem_map.mp h1
  rw [← heq]
  exact hdim c0 hc0

theorem kmeansIter_good (cfg : SM.ml.KMeansConfig) (ps : List SM.ml.ClusterPoint)
    (dim : Nat) :
    ∀ (n : Nat) (cs : List SM.ml.Cluster), cs ≠ [] →
      (∀ c ∈ cs, c.Centroid.length = dim) →
      (((SM.ml.kmeansIter cfg ps (n+1) cs).map (fun c => c.Points)).flatten).Perm ps
        ∧ SM.ml.kmeansIter cfg ps (n+1) cs ≠ []
        ∧ ∀ c ∈ SM.ml.kmeansIter cfg ps (n+1) cs, c.Centroid.length = dim := by
  intro n
  induction n with
  | zero =>
      intro cs hne hdim
      obtain ⟨hUne, hperm, hcl⟩ := onepass_facts ps cs dim hne hdim
      have hunf : SM.ml.kmeansIter cfg ps 1 cs
          = if SM.ml.hasConverged cfg.Tolerance (SM.ml.copyCentroids cs)
                (SM.ml.updateCentroids (SM.ml.assignPointsToClusters ps cs))
            then SM.ml.updateCentroids (SM.ml.assignPointsToClusters ps cs)
            else SM.ml.kmeansIter cfg ps 0
              (SM.ml.updateCentroids (SM.ml.assignPointsToClusters ps cs)) := rfl
      have hzero : SM.ml.kmeansIter cfg ps 0
          (SM.ml.updateCentroids (SM.ml.assignPointsToClusters ps cs))
          = SM.ml.updateCentroids (SM.ml.assignPointsToClusters ps cs) := rfl
      rw [hunf, hzero, ite_self]
      exact ⟨hperm, hUne, hcl⟩
  | succ m ih =>
      intro cs hne hdim
      obtain ⟨hUne, hperm, hcl⟩ := onepass_facts ps cs dim hne hdim
      have hunf : SM.ml.kmeansIter cfg ps (m + 1 + 1) cs
          = if SM.ml.hasConverged cfg.Tolerance (SM.ml.copyCentroids cs)
                (SM.ml.updateCentroids (SM.ml.assignPointsToClusters ps cs))
            then SM.ml.updateCentroids (SM.ml.assignPointsToClusters ps cs)
            else SM.ml.kmeansIter cfg ps (m + 1)
              (SM.ml.updateCentroids (SM.ml.assignPointsToClusters ps cs)) := rfl
      rw [hunf]
      by_cases hconv : SM.ml.hasConverged cfg.Tolerance (SM.ml.copyCentroids cs)
          (SM.ml.updateCentroids (SM.ml.assignPointsToClusters ps cs))
      · rw [if_pos hconv]
        exact ⟨hperm, hUne, hcl⟩
      · rw [if_neg hconv]
        exact ih _ hUne hcl

/-- C4: on at least `K ≥ 1` uniformly `dim`-dimensional feature vectors and at
least one iteration (as configured, every configured `maxIterations` is
positive), the clusters `KMeans` returns partition the input — the
concatenation of their assigned-point lists is a permutation of the input, so
each input vector occurs in the clusters exactly as often as in the input —
and every returned centroid has the input dimensionality `dim`. -/
theorem C4_kmeans_partition (cfg : SM.ml.KMeansConfig) (ps : List SM.ml.ClusterPoint)
    (dim : Nat) (hK : 0 < cfg.K) (hlen : cfg.K ≤ ps.length) (hIter : 0 < cfg.MaxIter)
    (hdim : ∀ p ∈ ps, p.Features.length = dim) :
    (((SM.ml.KMeans cfg ps).map (fun c => c.Points)).flatten).Perm ps
      ∧ ∀ c ∈ SM.ml.KMeans cfg ps, c.Centroid.length = dim := by
  have hnl : ¬ ps.length < cfg.K := by omega
  have hinit_len : (SM.ml.initializeClusters cfg ps).length = cfg.K := by
    simp [SM.ml.initializeClusters]
  have hinit_ne : SM.ml.initializeClusters cfg ps ≠ [] := by
    intro h
    rw [h] at hinit_len
    simp at hinit_len
    omega
  have hplen : 0 < ps.length := by omega
  have hinit_dim : ∀ c ∈ SM.ml.initializeClusters cfg ps, c.Centroid.length = dim := by
    intro c hc
    simp only [SM.ml.initializeClusters, List.mem_map, List.mem_range] at hc
    obtain ⟨i, hi, rfl⟩ := hc
    have hidx : i * ps.length / cfg.K < ps.length := by
      rw [Nat.div_lt_iff_lt_mul hK, Nat.mul_comm ps.length cfg.K]
      exact Nat.mul_lt_mul_of_pos_right hi hplen
    simp only [List.getElem?_eq_getElem hidx, Option.map_some', Option.getD_some]
    exact hdim _ (List.get_mem ps _ hidx)
  obtain ⟨m, hm⟩ : ∃ m, cfg.MaxIter = m + 1 := ⟨cfg.MaxIter - 1, by omega⟩
  have hgood := kmeansIter_good cfg ps dim m (SM.ml.initializeClusters cfg ps)
    hinit_ne hinit_dim
  simp only [SM.ml.KMeans, if_neg hnl, hm]
  exact ⟨hgood.1, hgood.2.2⟩

/-- C4 witness: `K = 1`, one iteration, one 1-dimensional feature vector. -/
theorem C4_witness :
    ((((SM.ml.KMeans SMFix.wCfg [SMFix.wPt]).map (fun c => c.Points)).flatten).Perm
        [SMFix.wPt])
      ∧ ∀ c ∈ SM.ml.KMeans SMFix.wCfg [SMFix.wPt], c.Centroid.length = 1 :=
  C4_kmeans_partition SMFix.wCfg [SMFix.wPt] 1 (by simp [SMFix.wCfg])
    (by simp [SMFix.wCfg]) (by simp [SMFix.wCfg])
    (by
      intro p hp
      simp only [List.mem_singleton] at hp
      subst hp
      simp [SMFix.wPt])
